import Mathlib

/-
Verification of the decorator-based call-tracking and time-boxed caching
core of the repository (0x02-redis_basic/exercise.py and
0x02-redis_basic/web.py).

The external key-value store (Redis) is modelled semantically through the
primitives the code calls: SET / SETEX / GET / INCR / RPUSH.  Stored byte
strings are modelled as Lean `String`s (UTF-8 encode/decode is the
identity at this level of abstraction).  Counter keys, plain string keys
and list keys live in separate fields of the state; the key namespaces
the code uses for the three kinds are disjoint (UUID keys, qualified
method names, "<qualname>:inputs"/"<qualname>:outputs",
"cache:<url>"/"count:<url>"), so no cross-kind aliasing arises.  Key
expiration (SETEX) is recorded as an absolute deadline and enforced
lazily by GET, exactly as Redis does; each wrapped call is given one
logical timestamp `now`.

Exceptions of the wrapped Python methods are modelled with `Except`;
since Redis is an external store, state changes performed before an
exception persist, so a method computes `RedisState × Except ε ρ`
rather than `Except ε (RedisState × ρ)`.
-/

/-- State of the external Redis store: plain string keys (with an optional
absolute expiration deadline set by SETEX), integer counter keys touched
only by INCR, and list keys touched only by RPUSH. -/
structure RedisState where
  strs : String → Option String
  expires : String → Option Nat
  counters : String → Option Int
  lists : String → List String

/-- The store with no keys at all. -/
def emptyState : RedisState :=
  ⟨fun _ => none, fun _ => none, fun _ => none, fun _ => []⟩

/-- Redis SET: store a byte string under `k`, clearing any expiration. -/
def rset (st : RedisState) (k v : String) : RedisState :=
  { st with
    strs := fun x => if x = k then some v else st.strs x
    expires := fun x => if x = k then none else st.expires x }

/-- Redis SETEX: store a byte string under `k` that expires `ttl` seconds
from `now`. -/
def rsetex (st : RedisState) (now ttl : Nat) (k v : String) : RedisState :=
  { st with
    strs := fun x => if x = k then some v else st.strs x
    expires := fun x => if x = k then some (now + ttl) else st.expires x }

/-- Redis GET at time `now`: absent and expired keys read as `none`
(expiration is enforced lazily at read time). -/
def rget (st : RedisState) (now : Nat) (k : String) : Option String :=
  match st.strs k with
  | none => none
  | some v =>
    match st.expires k with
    | none => some v
    | some e => if now < e then some v else none

/-- Redis INCR: atomically increment counter `k`, creating it at zero if
absent.  The callers in this repository ignore the returned integer, so
only the updated store is returned. -/
def rincr (st : RedisState) (k : String) : RedisState :=
  { st with
    counters := fun x =>
      if x = k then some ((st.counters k).getD 0 + 1) else st.counters x }

/-- Redis RPUSH: atomically append one item to the list at `k`, creating
the list empty if absent. -/
def rpush (st : RedisState) (k v : String) : RedisState :=
  { st with
    lists := fun x => if x = k then st.lists k ++ [v] else st.lists x }

/-- Redis FLUSHDB: erase every key of the database. -/
def flushdb (_ : RedisState) : RedisState := emptyState

/-- A (possibly failing) method acting on the shared Redis store:
`exercise.py` decorators wrap methods of this shape.  `α` is the
argument tuple, `ρ` the return value, `ε` the exception type.  Effects
already performed on the external store persist when the method raises. -/
def StoreMethod (ε α ρ : Type) : Type :=
  α → RedisState → RedisState × Except ε ρ

/-- `count_calls` (exercise.py): before delegating, INCR the counter
stored under the wrapped method's qualified name (the qualified name is
an attribute of the Python function object, here passed explicitly). -/
def count_calls (qualname : String) (method : StoreMethod ε α ρ) :
    StoreMethod ε α ρ :=
  fun a st => method a (rincr st qualname)

/-- `call_history` (exercise.py): RPUSH `str(args)` to
"<qualname>:inputs", delegate, and on normal return RPUSH `str(result)`
to "<qualname>:outputs".  `strArgs`/`strRes` stand for Python `str` on
the argument tuple and on the result; if the method raises, no output is
appended and the exception propagates. -/
def call_history (qualname : String) (strArgs : α → String)
    (strRes : ρ → String) (method : StoreMethod ε α ρ) :
    StoreMethod ε α ρ :=
  fun a st =>
    let input_key := qualname ++ ":inputs"
    let output_key := qualname ++ ":outputs"
    let st1 := rpush st input_key (strArgs a)
    match method a st1 with
    | (st2, Except.error e) => (st2, Except.error e)
    | (st2, Except.ok r) => (rpush st2 output_key (strRes r), Except.ok r)

/-- A value accepted by `Cache.store`: str, bytes, int or float.  Byte
sequences are modelled as Lean strings; a float is identified by its
textual representation (its Python `repr`). -/
inductive PyVal where
  | vstr (s : String)
  | vbytes (b : String)
  | vint (n : Int)
  | vfloat (r : String)
deriving DecidableEq

/-- The byte string the Redis client actually stores for a value: str is
UTF-8 encoded (identity here), bytes pass through, int and float are
serialised to their textual representation. -/
def encodeVal : PyVal → String
  | PyVal.vstr s => s
  | PyVal.vbytes b => b
  | PyVal.vint n => toString n
  | PyVal.vfloat r => r

/-- Python `repr` of a stored value (abstraction of the builtin; no claim
depends on its exact text). -/
def pyRepr : PyVal → String
  | PyVal.vstr s => "\x27" ++ s ++ "\x27"
  | PyVal.vbytes b => "b\x27" ++ b ++ "\x27"
  | PyVal.vint n => toString n
  | PyVal.vfloat r => r

/-- Python `str(args)` for the one-element positional argument tuple
`(data,)` that `Cache.store` receives. -/
def pyStrArgs (v : PyVal) : String :=
  "(" ++ pyRepr v ++ ",)"

/-- Body of `Cache.store` (exercise.py): SET the data under a freshly
generated UUID key and return that key.  The fresh key produced by
`uuid.uuid4()` is passed in explicitly. -/
def store_body (freshKey : String) : StoreMethod Unit PyVal String :=
  fun data st => (rset st freshKey (encodeVal data), Except.ok freshKey)

/-- `Cache.store` as decorated in the source:
`@count_calls @call_history` on `store`, with qualified name
"Cache.store"; `str` of the result key is the key itself. -/
def Cache.store (freshKey : String) : StoreMethod Unit PyVal String :=
  count_calls "Cache.store"
    (call_history "Cache.store" pyStrArgs (fun s => s) (store_body freshKey))

/-- Run a method once per element of `args`, threading the store and
collecting results, stopping at the first raised exception. -/
def runCalls (f : StoreMethod ε α ρ) :
    List α → RedisState → RedisState × Except ε (List ρ)
  | [], st => (st, Except.ok [])
  | a :: as, st =>
    match f a st with
    | (st1, Except.error e) => (st1, Except.error e)
    | (st1, Except.ok r) =>
      match runCalls f as st1 with
      | (st2, Except.error e) => (st2, Except.error e)
      | (st2, Except.ok rs) => (st2, Except.ok (r :: rs))

/-- A sequence of `Cache.store` calls, each with its fresh UUID key and
its data argument. -/
def storeCalls (calls : List (String × PyVal)) (st : RedisState) :
    RedisState × Except Unit (List String) :=
  runCalls (fun p => Cache.store p.1 p.2) calls st

/-- `Cache.__init__` (exercise.py): connect and FLUSHDB the database. -/
def Cache.init (st : RedisState) : RedisState := flushdb st

/-- `Cache.get` (exercise.py): GET the key; on absence return None; if a
conversion function was supplied apply it to the raw bytes, else return
the raw bytes.  The Python return type `bytes | converted | None` is the
sum `Option (String ⊕ γ)`. -/
def Cache.get (st : RedisState) (now : Nat) (key : String)
    (fn : Option (String → γ)) : Option (String ⊕ γ) :=
  match rget st now key with
  | none => none
  | some data =>
    match fn with
    | some f => some (Sum.inr (f data))
    | none => some (Sum.inl data)

/-- `Cache.get_str`: `get` with the UTF-8 decoding conversion (identity
on the byte-string model). -/
def Cache.get_str (st : RedisState) (now : Nat) (key : String) :
    Option (String ⊕ String) :=
  Cache.get st now key (some (fun d => d))

/-- Python `int()` applied to a byte string: parses an optionally signed
decimal numeral, raising ValueError otherwise. -/
def pyIntOfBytes (s : String) : Except Unit Int :=
  match s.toInt? with
  | some n => Except.ok n
  | none => Except.error ()

/-- `Cache.get_int`: `get` with the `int` conversion (which may raise;
the error channel of the conversion is part of its value here). -/
def Cache.get_int (st : RedisState) (now : Nat) (key : String) :
    Option (String ⊕ Except Unit Int) :=
  Cache.get st now key (some pyIntOfBytes)

/-- The intermediate store state inside the doubly decorated store call,
after the two "before" effects (INCR of the counter, RPUSH of the input
record) and before the underlying method runs. -/
def beforeEffects (qualname sArg : String) (st : RedisState) : RedisState :=
  rpush (rincr st qualname) (qualname ++ ":inputs") sArg

/-- An idempotent fetch-by-URL operation (web.py's undecorated
`get_page`, i.e. `requests.get(url).text`): it acts on external-world
state `σ`, may observe the current time, and may fail. -/
def FetchMethod (ε σ : Type) : Type :=
  String → Nat → σ → σ × Except ε String

/-- `cache_response` (web.py): INCR "count:<url>" unconditionally, then
GET "cache:<url>"; a *truthy* (present and non-empty) cached byte string
is decoded and returned without fetching; otherwise the wrapped fetch
runs and its result is SETEX-stored under "cache:<url>" for 10 seconds.
One logical timestamp `now` is used for the whole call. -/
def cache_response (method : FetchMethod ε σ) (st : RedisState) (ext : σ)
    (now : Nat) (url : String) : RedisState × σ × Except ε String :=
  let cache_key := "cache:" ++ url
  let count_key := "count:" ++ url
  let st1 := rincr st count_key
  match rget st1 now cache_key with
  | some cached =>
    if cached = "" then
      match method url now ext with
      | (ext1, Except.error e) => (st1, ext1, Except.error e)
      | (ext1, Except.ok body) =>
        (rsetex st1 now 10 cache_key body, ext1, Except.ok body)
    else (st1, ext, Except.ok cached)
  | none =>
    match method url now ext with
    | (ext1, Except.error e) => (st1, ext1, Except.error e)
    | (ext1, Except.ok body) =>
      (rsetex st1 now 10 cache_key body, ext1, Except.ok body)

/-- Instrument a pure fetch function with an invocation counter: the
external state counts how many times the underlying fetch actually ran. -/
def instrument (f : String → Nat → Except ε String) : FetchMethod ε Nat :=
  fun url now n =>
    match f url now with
    | Except.error e => (n + 1, Except.error e)
    | Except.ok b => (n + 1, Except.ok b)

/-- Two successive calls of the decorated `get_page` on the same URL at
times `t1` and `t2`, the underlying fetch instrumented with an invocation
counter starting at 0.  Returns (final store, number of underlying fetch
invocations, first result, second result). -/
def twoFetches (f : String → Nat → Except ε String) (st : RedisState)
    (t1 t2 : Nat) (url : String) :
    RedisState × Nat × Except ε String × Except ε String :=
  let r1 := cache_response (instrument f) st 0 t1 url
  let r2 := cache_response (instrument f) r1.1 r1.2.1 t2 url
  (r2.1, r2.2.1, r1.2.2, r2.2.2)

theorem inputs_ne_outputs (q : String) : q ++ ":inputs" ≠ q ++ ":outputs" := by
  intro h
  have h2 := congrArg String.length h
  rw [String.length_append, String.length_append] at h2
  have h7 : String.length ":inputs" = 7 := rfl
  have h8 : String.length ":outputs" = 8 := rfl
  omega

theorem store_call_result (freshKey : String) (v : PyVal) (st : RedisState) :
    (Cache.store freshKey v st).2 = Except.ok freshKey := by
  simp [Cache.store, count_calls, call_history, store_body]

theorem store_call_counters (freshKey : String) (v : PyVal) (st : RedisState)
    (k : String) :
    (Cache.store freshKey v st).1.counters k = (rincr st "Cache.store").counters k := by
  simp [Cache.store, count_calls, call_history, store_body, rset, rpush, rincr]

theorem store_call_strs (freshKey : String) (v : PyVal) (st : RedisState) :
    (Cache.store freshKey v st).1.strs freshKey = some (encodeVal v) := by
  simp [Cache.store, count_calls, call_history, store_body, rset, rpush, rincr]

theorem store_call_expires (freshKey : String) (v : PyVal) (st : RedisState) :
    (Cache.store freshKey v st).1.expires freshKey = none := by
  simp [Cache.store, count_calls, call_history, store_body, rset, rpush, rincr]

theorem storeCalls_spec (calls : List (String × PyVal)) (st : RedisState) :
    (storeCalls calls st).2 = Except.ok (calls.map Prod.fst) ∧
    (storeCalls calls st).1.counters "Cache.store" =
      (if calls.isEmpty then st.counters "Cache.store"
       else some ((st.counters "Cache.store").getD 0 + calls.length)) := by
  induction calls generalizing st with
  | nil => simp [storeCalls, runCalls]
  | cons p ps ih =>
    have h2 := store_call_result p.1 p.2 st
    rcases hs : Cache.store p.1 p.2 st with ⟨S1, res⟩
    rw [hs] at h2
    simp only at h2
    subst h2
    have hcnt := store_call_counters p.1 p.2 st "Cache.store"
    rw [hs] at hcnt
    simp only at hcnt
    obtain ⟨ih1, ih2⟩ := ih S1
    rcases hr : runCalls (fun p => Cache.store p.1 p.2) ps S1 with ⟨S2, res2⟩
    rw [storeCalls, hr] at ih1 ih2
    simp only at ih1 ih2
    subst ih1
    have hrun : storeCalls (p :: ps) st = (S2, Except.ok (p.1 :: ps.map Prod.fst)) := by
      simp only [storeCalls, runCalls, hs, hr]
    rw [hrun]
    refine ⟨rfl, ?_⟩
    simp only
    rw [ih2, hcnt]
    rcases ps with _ | ⟨q, qs⟩
    · simp [rincr]
    · simp only [List.isEmpty_cons, Bool.false_eq_true, if_false, List.length_cons, rincr,
        if_pos rfl, Option.getD_some, Option.some.injEq, if_true]
      omega

/-- C10: constructing a `Cache` flushes the entire backing store — after
`Cache.__init__`, every stored value, expiration, operation counter and
call-history list is erased, whichever key it was under and whoever
wrote it. -/
theorem claim_C10 (st : RedisState) (k : String) :
    (Cache.init st).strs k = none ∧ (Cache.init st).expires k = none ∧
    (Cache.init st).counters k = none ∧ (Cache.init st).lists k = [] :=
  ⟨rfl, rfl, rfl, rfl⟩

/-- C5: for every supported value, retrieving under the key returned by
`store` with no conversion function yields back exactly the byte string
that encodes the value (str/bytes pass through, int/float are their
textual representation). -/
theorem claim_C5 (γ : Type) (v : PyVal) (freshKey : String) (st : RedisState)
    (now : Nat) :
    (Cache.store freshKey v st).2 = Except.ok freshKey ∧
    Cache.get (Cache.store freshKey v st).1 now freshKey
      (none : Option (String → γ)) = some (Sum.inl (encodeVal v)) := by
  refine ⟨store_call_result freshKey v st, ?_⟩
  simp [Cache.get, rget, store_call_strs, store_call_expires]

/-- C8: for a key absent from the store, `get` returns None whatever
conversion function is supplied, and so do `get_str` and `get_int`;
absence is a value, not an exception. -/
theorem claim_C8 (γ : Type) (st : RedisState) (now : Nat) (key : String)
    (fn : Option (String → γ)) (habs : rget st now key = none) :
    Cache.get st now key fn = none ∧ Cache.get_str st now key = none ∧
    Cache.get_int st now key = none := by
  refine ⟨?_, ?_, ?_⟩ <;>
    simp [Cache.get, Cache.get_str, Cache.get_int, habs]

/-- Witness for C8 at a concrete absent key and conversion function. -/
theorem claim_C8_witness :
    Cache.get emptyState 0 "missing" (some (fun _ => (37 : Nat))) = none ∧
    Cache.get_str emptyState 0 "missing" = none ∧
    Cache.get_int emptyState 0 "missing" = none :=
  claim_C8 Nat emptyState 0 "missing" (some (fun _ => (37 : Nat))) rfl

/-- C4: calling the decorated `Cache.store` exactly `n` times from a
freshly initialised store leaves the counter at key "Cache.store" equal
to `n`; the counter key does not exist before the first call and is
created implicitly by it. -/
theorem claim_C4 (calls : List (String × PyVal)) (st : RedisState) :
    (storeCalls calls (Cache.init st)).2 = Except.ok (calls.map Prod.fst) ∧
    (storeCalls calls (Cache.init st)).1.counters "Cache.store" =
      (if calls.isEmpty then none else some (calls.length : Int)) := by
  obtain ⟨h1, h2⟩ := storeCalls_spec calls (Cache.init st)
  refine ⟨h1, ?_⟩
  rw [h2]
  rcases calls with _ | ⟨p, ps⟩
  · rfl
  · simp [Cache.init, flushdb, emptyState]

theorem rpush_lists_self (st : RedisState) (k v : String) :
    (rpush st k v).lists k = st.lists k ++ [v] := by
  simp [rpush]

theorem rpush_lists_ne (st : RedisState) (k v x : String) (h : x ≠ k) :
    (rpush st k v).lists x = st.lists x := by
  simp [rpush, h]

theorem call_history_ok {ε α ρ : Type} (q : String) (strA : α → String)
    (strR : ρ → String) (method : StoreMethod ε α ρ) (a : α)
    (st s2 : RedisState) (r : ρ)
    (hm : method a (rpush st (q ++ ":inputs") (strA a)) = (s2, Except.ok r)) :
    call_history q strA strR method a st =
      (rpush s2 (q ++ ":outputs") (strR r), Except.ok r) := by
  simp only [call_history, hm]

theorem call_history_err {ε α ρ : Type} (q : String) (strA : α → String)
    (strR : ρ → String) (method : StoreMethod ε α ρ) (a : α)
    (st s2 : RedisState) (e : ε)
    (hm : method a (rpush st (q ++ ":inputs") (strA a)) = (s2, Except.error e)) :
    call_history q strA strR method a st = (s2, Except.error e) := by
  simp only [call_history, hm]

/-- C3: for every operation decorated with `call_history`, after `n`
successful calls the inputs and outputs lists have each grown by exactly
`n` aligned entries: the i-th appended input is `str` of the i-th
argument tuple, the i-th appended output is `str` of the actual i-th
return value, both lists are append-only, and their lengths agree
(provided the underlying method itself leaves the two history keys
alone, as `store` does). -/
theorem claim_C3 {ε α ρ : Type} (q : String) (strA : α → String)
    (strR : ρ → String) (method : StoreMethod ε α ρ) (calls : List α)
    (st0 st1 : RedisState) (rs : List ρ)
    (hpres : ∀ a s s2 r, method a s = (s2, Except.ok r) →
      s2.lists (q ++ ":inputs") = s.lists (q ++ ":inputs") ∧
      s2.lists (q ++ ":outputs") = s.lists (q ++ ":outputs"))
    (hrun : runCalls (call_history q strA strR method) calls st0 =
      (st1, Except.ok rs)) :
    st1.lists (q ++ ":inputs") = st0.lists (q ++ ":inputs") ++ calls.map strA ∧
    st1.lists (q ++ ":outputs") = st0.lists (q ++ ":outputs") ++ rs.map strR ∧
    rs.length = calls.length := by
  induction calls generalizing st0 rs with
  | nil =>
    simp only [runCalls, Prod.mk.injEq, Except.ok.injEq] at hrun
    obtain ⟨h1, h2⟩ := hrun
    subst h1
    subst h2
    simp
  | cons a as ih =>
    rcases hm : method a (rpush st0 (q ++ ":inputs") (strA a)) with ⟨s2, res⟩
    cases res with
    | error e =>
      have hc := call_history_err q strA strR method a st0 s2 e hm
      simp only [runCalls, hc] at hrun
      simp at hrun
    | ok r =>
      have hc := call_history_ok q strA strR method a st0 s2 r hm
      simp only [runCalls, hc] at hrun
      rcases hr : runCalls (call_history q strA strR method) as
          (rpush s2 (q ++ ":outputs") (strR r)) with ⟨s3, res2⟩
      rw [hr] at hrun
      cases res2 with
      | error e => simp at hrun
      | ok rs2 =>
        simp only [Prod.mk.injEq, Except.ok.injEq] at hrun
        obtain ⟨h1, h2⟩ := hrun
        subst h1
        subst h2
        obtain ⟨ih1, ih2, ih3⟩ := ih _ _ hr
        have hpre := hpres a _ _ _ hm
        have hne := inputs_ne_outputs q
        refine ⟨?_, ?_, ?_⟩
        · rw [ih1, rpush_lists_ne _ _ _ _ hne, hpre.1, rpush_lists_self]
          simp
        · rw [ih2, rpush_lists_self, hpre.2,
            rpush_lists_ne _ _ _ _ (Ne.symm hne)]
          simp
        · simp [ih3]

/-- Witness for C3: two concrete store-body calls through
`call_history`. -/
theorem claim_C3_witness :
    ((runCalls (call_history "Cache.store" pyStrArgs (fun s => s) (store_body "k1"))
        [PyVal.vint 5, PyVal.vstr "x"] emptyState).1).lists ("Cache.store" ++ ":inputs") =
      emptyState.lists ("Cache.store" ++ ":inputs") ++
        [PyVal.vint 5, PyVal.vstr "x"].map pyStrArgs ∧
    ((runCalls (call_history "Cache.store" pyStrArgs (fun s => s) (store_body "k1"))
        [PyVal.vint 5, PyVal.vstr "x"] emptyState).1).lists ("Cache.store" ++ ":outputs") =
      emptyState.lists ("Cache.store" ++ ":outputs") ++
        (["k1", "k1"] : List String).map (fun s => s) ∧
    (["k1", "k1"] : List String).length = ([PyVal.vint 5, PyVal.vstr "x"] : List PyVal).length :=
  claim_C3 "Cache.store" pyStrArgs (fun s => s) (store_body "k1")
    [PyVal.vint 5, PyVal.vstr "x"] emptyState _ ["k1", "k1"]
    (by
      intro a s s2 r hm
      cases hm
      simp [store_body, rset])
    rfl

/-- C2: when the underlying method raises inside a store call decorated
with both `count_calls` and `call_history`, the exception propagates to
the caller, the counter increment and the already-appended input record
stand, and no output record is appended. -/
theorem claim_C2 {ε α ρ : Type} (q : String) (strA : α → String)
    (strR : ρ → String) (method : StoreMethod ε α ρ) (a : α)
    (st st2 : RedisState) (e : ε)
    (hm : method a (beforeEffects q (strA a) st) = (st2, Except.error e))
    (hc : st2.counters q = (beforeEffects q (strA a) st).counters q)
    (hin : st2.lists (q ++ ":inputs") =
      (beforeEffects q (strA a) st).lists (q ++ ":inputs"))
    (hout : st2.lists (q ++ ":outputs") =
      (beforeEffects q (strA a) st).lists (q ++ ":outputs")) :
    count_calls q (call_history q strA strR method) a st = (st2, Except.error e) ∧
    st2.counters q = some ((st.counters q).getD 0 + 1) ∧
    st2.lists (q ++ ":inputs") = st.lists (q ++ ":inputs") ++ [strA a] ∧
    st2.lists (q ++ ":outputs") = st.lists (q ++ ":outputs") := by
  simp only [beforeEffects] at hm hc hin hout
  have hne := inputs_ne_outputs q
  refine ⟨?_, ?_, ?_, ?_⟩
  · simp only [count_calls]
    exact call_history_err q strA strR method a (rincr st q) st2 e hm
  · rw [hc]
    simp [rpush, rincr]
  · rw [hin, rpush_lists_self]
    simp [rincr]
  · rw [hout, rpush_lists_ne _ _ _ _ (Ne.symm hne)]
    simp [rincr]

/-- Witness for C2: a concrete always-raising method under both
decorators. -/
theorem claim_C2_witness :
    count_calls "Cache.store" (call_history "Cache.store" pyStrArgs (fun s => s)
        (fun (_ : PyVal) (s : RedisState) => (s, (Except.error () : Except Unit String))))
        (PyVal.vint 3) emptyState =
      (beforeEffects "Cache.store" (pyStrArgs (PyVal.vint 3)) emptyState, Except.error ()) ∧
    (beforeEffects "Cache.store" (pyStrArgs (PyVal.vint 3)) emptyState).counters "Cache.store" =
      some ((emptyState.counters "Cache.store").getD 0 + 1) ∧
    (beforeEffects "Cache.store" (pyStrArgs (PyVal.vint 3)) emptyState).lists
        ("Cache.store" ++ ":inputs") =
      emptyState.lists ("Cache.store" ++ ":inputs") ++ [pyStrArgs (PyVal.vint 3)] ∧
    (beforeEffects "Cache.store" (pyStrArgs (PyVal.vint 3)) emptyState).lists
        ("Cache.store" ++ ":outputs") =
      emptyState.lists ("Cache.store" ++ ":outputs") :=
  claim_C2 "Cache.store" pyStrArgs (fun s => s)
    (fun (_ : PyVal) (s : RedisState) => (s, (Except.error () : Except Unit String)))
    (PyVal.vint 3) emptyState
    (beforeEffects "Cache.store" (pyStrArgs (PyVal.vint 3)) emptyState) ()
    rfl rfl rfl rfl

theorem rget_rincr (st : RedisState) (k x : String) (now : Nat) :
    rget (rincr st k) now x = rget st now x := rfl

theorem instrument_ok {ε : Type} (f : String → Nat → Except ε String)
    (url : String) (now n : Nat) (b : String) (hf : f url now = Except.ok b) :
    instrument f url now n = (n + 1, Except.ok b) := by
  simp [instrument, hf]

theorem instrument_err {ε : Type} (f : String → Nat → Except ε String)
    (url : String) (now n : Nat) (e : ε) (hf : f url now = Except.error e) :
    instrument f url now n = (n + 1, Except.error e) := by
  simp [instrument, hf]

theorem cache_response_hit {ε σ : Type} (method : FetchMethod ε σ)
    (st : RedisState) (ext : σ) (now : Nat) (url c : String)
    (hget : rget st now ("cache:" ++ url) = some c) (hc : c ≠ "") :
    cache_response method st ext now url =
      (rincr st ("count:" ++ url), ext, Except.ok c) := by
  simp only [cache_response, rget_rincr, hget, if_neg hc]

theorem cache_response_fetch_ok {ε σ : Type} (method : FetchMethod ε σ)
    (st : RedisState) (ext ext1 : σ) (now : Nat) (url b : String)
    (hget : rget st now ("cache:" ++ url) = none ∨
      rget st now ("cache:" ++ url) = some "")
    (hf : method url now ext = (ext1, Except.ok b)) :
    cache_response method st ext now url =
      (rsetex (rincr st ("count:" ++ url)) now 10 ("cache:" ++ url) b,
        ext1, Except.ok b) := by
  rcases hget with h | h <;>
    simp only [cache_response, rget_rincr, h, hf, if_pos rfl, if_true]

theorem cache_response_fetch_err {ε σ : Type} (method : FetchMethod ε σ)
    (st : RedisState) (ext ext1 : σ) (now : Nat) (url : String) (e : ε)
    (hget : rget st now ("cache:" ++ url) = none ∨
      rget st now ("cache:" ++ url) = some "")
    (hf : method url now ext = (ext1, Except.error e)) :
    cache_response method st ext now url =
      (rincr st ("count:" ++ url), ext1, Except.error e) := by
  rcases hget with h | h <;>
    simp only [cache_response, rget_rincr, h, hf, if_pos rfl, if_true]

/-- C7: calling the cached fetch once and again after the 10-second TTL
has elapsed invokes the underlying fetch twice, and the second call
overwrites the cached content with the fresh result and a new
expiration of now + 10 seconds. -/
theorem claim_C7 {ε : Type} (f : String → Nat → Except ε String)
    (st : RedisState) (url : String) (t1 t2 : Nat) (b1 b2 : String)
    (hmiss : rget st t1 ("cache:" ++ url) = none)
    (hf1 : f url t1 = Except.ok b1) (hf2 : f url t2 = Except.ok b2)
    (ht : t1 + 10 ≤ t2) :
    (twoFetches f st t1 t2 url).2.2.1 = Except.ok b1 ∧
    (twoFetches f st t1 t2 url).2.1 = 2 ∧
    (twoFetches f st t1 t2 url).2.2.2 = Except.ok b2 ∧
    (twoFetches f st t1 t2 url).1.strs ("cache:" ++ url) = some b2 ∧
    (twoFetches f st t1 t2 url).1.expires ("cache:" ++ url) = some (t2 + 10) := by
  have h1 := cache_response_fetch_ok (instrument f) st 0 1 t1 url b1
    (Or.inl hmiss) (instrument_ok f url t1 0 b1 hf1)
  have hnl : ¬ (t2 < t1 + 10) := by omega
  have hget2 : rget (rsetex (rincr st ("count:" ++ url)) t1 10 ("cache:" ++ url) b1)
      t2 ("cache:" ++ url) = none := by
    simp [rget, rsetex, hnl]
  have h2 := cache_response_fetch_ok (instrument f)
    (rsetex (rincr st ("count:" ++ url)) t1 10 ("cache:" ++ url) b1) 1 2 t2 url b2
    (Or.inl hget2) (instrument_ok f url t2 1 b2 hf2)
  simp only [twoFetches, h1, h2]
  refine ⟨trivial, trivial, trivial, ?_, ?_⟩ <;> simp [rsetex, rincr]

/-- C1 (amended): two calls within the TTL window increment the access
counter by 2, and — provided the first call's underlying fetch returns a
*nonempty* body — the underlying fetch is invoked only once and the
second call returns the stored content without invoking it.  The
nonemptiness proviso is forced: the wrapper tests the cached bytes for
truthiness, so an empty cached body is treated as a miss (see the
counterexample and C9). -/
theorem claim_C1 {ε : Type} (f : String → Nat → Except ε String)
    (st : RedisState) (url : String) (t1 t2 : Nat) (b : String)
    (hmiss : rget st t1 ("cache:" ++ url) = none)
    (hf : f url t1 = Except.ok b) (hb : b ≠ "") (ht : t2 < t1 + 10) :
    (twoFetches f st t1 t2 url).2.2.1 = Except.ok b ∧
    (twoFetches f st t1 t2 url).2.2.2 = Except.ok b ∧
    (twoFetches f st t1 t2 url).2.1 = 1 ∧
    (twoFetches f st t1 t2 url).1.counters ("count:" ++ url) =
      some ((st.counters ("count:" ++ url)).getD 0 + 2) := by
  have h1 := cache_response_fetch_ok (instrument f) st 0 1 t1 url b
    (Or.inl hmiss) (instrument_ok f url t1 0 b hf)
  have hget2 : rget (rsetex (rincr st ("count:" ++ url)) t1 10 ("cache:" ++ url) b)
      t2 ("cache:" ++ url) = some b := by
    simp [rget, rsetex, ht]
  have h2 := cache_response_hit (instrument f)
    (rsetex (rincr st ("count:" ++ url)) t1 10 ("cache:" ++ url) b) 1 t2 url b
    hget2 hb
  simp only [twoFetches, h1, h2]
  refine ⟨trivial, trivial, trivial, ?_⟩
  simp only [rincr, rsetex, if_pos rfl, if_true, Option.getD_some, Option.some.injEq]
  omega

/-- C9: when the underlying fetch returns an empty body, the cached
entry is falsy, so a subsequent call within the TTL is treated as a
cache miss: the underlying fetch runs again and the cache entry is
rewritten with a fresh 10-second expiration; an empty response is never
served from cache. -/
theorem claim_C9 {ε : Type} (f : String → Nat → Except ε String)
    (st : RedisState) (url : String) (t1 t2 : Nat) (s2 : String)
    (hmiss : rget st t1 ("cache:" ++ url) = none)
    (hf1 : f url t1 = Except.ok "") (hf2 : f url t2 = Except.ok s2)
    (ht : t2 < t1 + 10) :
    (twoFetches f st t1 t2 url).2.1 = 2 ∧
    (twoFetches f st t1 t2 url).2.2.2 = Except.ok s2 ∧
    (twoFetches f st t1 t2 url).1.strs ("cache:" ++ url) = some s2 ∧
    (twoFetches f st t1 t2 url).1.expires ("cache:" ++ url) = some (t2 + 10) := by
  have h1 := cache_response_fetch_ok (instrument f) st 0 1 t1 url ""
    (Or.inl hmiss) (instrument_ok f url t1 0 "" hf1)
  have hget2 : rget (rsetex (rincr st ("count:" ++ url)) t1 10 ("cache:" ++ url) "")
      t2 ("cache:" ++ url) = some "" := by
    simp [rget, rsetex, ht]
  have h2 := cache_response_fetch_ok (instrument f)
    (rsetex (rincr st ("count:" ++ url)) t1 10 ("cache:" ++ url) "") 1 2 t2 url s2
    (Or.inr hget2) (instrument_ok f url t2 1 s2 hf2)
  simp only [twoFetches, h1, h2]
  refine ⟨trivial, trivial, ?_, ?_⟩ <;> simp [rsetex]

/-- C6: if the underlying fetch raises during a cached fetch, the
failure propagates to the caller, no cache entry is written for the
identifier, and the access-counter increment performed at the start of
the call stands. -/
theorem claim_C6 {ε σ : Type} (method : FetchMethod ε σ) (st : RedisState)
    (ext ext1 : σ) (now : Nat) (url : String) (e : ε)
    (hmiss : rget st now ("cache:" ++ url) = none)
    (hf : method url now ext = (ext1, Except.error e)) :
    cache_response method st ext now url =
      (rincr st ("count:" ++ url), ext1, Except.error e) ∧
    (rincr st ("count:" ++ url)).strs ("cache:" ++ url) = st.strs ("cache:" ++ url) ∧
    (rincr st ("count:" ++ url)).expires ("cache:" ++ url) =
      st.expires ("cache:" ++ url) ∧
    (rincr st ("count:" ++ url)).counters ("count:" ++ url) =
      some ((st.counters ("count:" ++ url)).getD 0 + 1) := by
  refine ⟨cache_response_fetch_err method st ext ext1 now url e (Or.inl hmiss) hf,
    rfl, rfl, ?_⟩
  simp [rincr]

/-- C1 as stated is false on the code: with an underlying fetch that
returns an empty body, two calls on the same URL within the TTL window
invoke the underlying fetch twice, not at most once (the wrapper's
truthiness test treats the cached empty byte string as a miss). -/
theorem claim_C1_counterexample :
    (twoFetches (fun _ _ => (Except.ok "" : Except Unit String))
      emptyState 0 5 "u").2.1 = 2 ∧
    ¬ ((twoFetches (fun _ _ => (Except.ok "" : Except Unit String))
      emptyState 0 5 "u").2.1 ≤ 1) := by
  decide

/-- Witness for the amended C1 at a concrete nonempty fetch. -/
theorem claim_C1_witness :
    (twoFetches (fun _ _ => (Except.ok "page" : Except Unit String))
      emptyState 0 5 "u").2.2.1 = Except.ok "page" ∧
    (twoFetches (fun _ _ => (Except.ok "page" : Except Unit String))
      emptyState 0 5 "u").2.2.2 = Except.ok "page" ∧
    (twoFetches (fun _ _ => (Except.ok "page" : Except Unit String))
      emptyState 0 5 "u").2.1 = 1 ∧
    (twoFetches (fun _ _ => (Except.ok "page" : Except Unit String))
      emptyState 0 5 "u").1.counters ("count:" ++ "u") =
      some ((emptyState.counters ("count:" ++ "u")).getD 0 + 2) :=
  claim_C1 (fun _ _ => (Except.ok "page" : Except Unit String))
    emptyState "u" 0 5 "page" rfl rfl (by decide) (by decide)

/-- Witness for C7 at concrete times 0 and 10. -/
theorem claim_C7_witness :
    (twoFetches (fun _ t => (Except.ok (if t = 0 then "a" else "b") : Except Unit String))
      emptyState 0 10 "u").2.2.1 = Except.ok "a" ∧
    (twoFetches (fun _ t => (Except.ok (if t = 0 then "a" else "b") : Except Unit String))
      emptyState 0 10 "u").2.1 = 2 ∧
    (twoFetches (fun _ t => (Except.ok (if t = 0 then "a" else "b") : Except Unit String))
      emptyState 0 10 "u").2.2.2 = Except.ok "b" ∧
    (twoFetches (fun _ t => (Except.ok (if t = 0 then "a" else "b") : Except Unit String))
      emptyState 0 10 "u").1.strs ("cache:" ++ "u") = some "b" ∧
    (twoFetches (fun _ t => (Except.ok (if t = 0 then "a" else "b") : Except Unit String))
      emptyState 0 10 "u").1.expires ("cache:" ++ "u") = some (10 + 10) :=
  claim_C7 (fun _ t => (Except.ok (if t = 0 then "a" else "b") : Except Unit String))
    emptyState "u" 0 10 "a" "b" rfl rfl rfl (by decide)

/-- Witness for C9: empty first fetch, second call at time 5. -/
theorem claim_C9_witness :
    (twoFetches (fun _ t => (Except.ok (if t = 0 then "" else "x") : Except Unit String))
      emptyState 0 5 "u").2.1 = 2 ∧
    (twoFetches (fun _ t => (Except.ok (if t = 0 then "" else "x") : Except Unit String))
      emptyState 0 5 "u").2.2.2 = Except.ok "x" ∧
    (twoFetches (fun _ t => (Except.ok (if t = 0 then "" else "x") : Except Unit String))
      emptyState 0 5 "u").1.strs ("cache:" ++ "u") = some "x" ∧
    (twoFetches (fun _ t => (Except.ok (if t = 0 then "" else "x") : Except Unit String))
      emptyState 0 5 "u").1.expires ("cache:" ++ "u") = some (5 + 10) :=
  claim_C9 (fun _ t => (Except.ok (if t = 0 then "" else "x") : Except Unit String))
    emptyState "u" 0 5 "x" rfl rfl rfl (by decide)

/-- Witness for C6: a concrete always-failing fetch. -/
theorem claim_C6_witness :
    cache_response (instrument (fun _ _ => (Except.error () : Except Unit String)))
      emptyState 0 0 "u" =
      (rincr emptyState ("count:" ++ "u"), 1, Except.error ()) ∧
    (rincr emptyState ("count:" ++ "u")).strs ("cache:" ++ "u") =
      emptyState.strs ("cache:" ++ "u") ∧
    (rincr emptyState ("count:" ++ "u")).expires ("cache:" ++ "u") =
      emptyState.expires ("cache:" ++ "u") ∧
    (rincr emptyState ("count:" ++ "u")).counters ("count:" ++ "u") =
      some ((emptyState.counters ("count:" ++ "u")).getD 0 + 1) :=
  claim_C6 (instrument (fun _ _ => (Except.error () : Except Unit String)))
    emptyState 0 1 0 "u" () rfl rfl
